import Mathlib

/-!
Verification of the graphql-mcp repository's operation resolver, example
generator, tool handlers, response normalization and token cache.

Each definition below is a shallow embedding of a function of the source
(file and function named in its doc comment).  JavaScript values that the
code manipulates dynamically are modelled by the inductive `JSValue`;
JavaScript numbers appearing here are small integers (note that in
JavaScript the literals `1` and `1.0` denote the same number, so both are
modelled as `JSValue.num 1`).  Machine-level string operations
(`toLowerCase`, `includes`, `trim`) are modelled on Lean `String`s, which
is faithful for the ASCII GraphQL names and keywords involved.
-/

namespace GraphQLMcp

/-- Model of a dynamically-typed JavaScript/JSON value as manipulated by the
source.  `num` holds an integer since every number the embedded code
produces or compares is integral (`1` and `1.0` are the same JavaScript
number). -/
inductive JSValue where
  | null
  | bool (b : Bool)
  | num (n : Int)
  | str (s : String)
  | arr (elems : List JSValue)
  | obj (fields : List (String × JSValue))

/-- JavaScript truthiness of a modelled value (`undefined` and `null` both
collapse to `JSValue.null`). -/
def truthy : JSValue → Bool
  | .null => false
  | .bool b => b
  | .num n => n != 0
  | .str s => s != ""
  | .arr _ => true
  | .obj _ => true

/-- First binding of a key in an object's field list (JavaScript property
lookup: later duplicate keys are unreachable here, first match wins as in
an assoc list built by object literals). -/
def lookupField : List (String × JSValue) → String → Option JSValue
  | [], _ => none
  | (k, v) :: fs, key => if k = key then some v else lookupField fs key

/-- Property access `v[key]` on a modelled value: `undefined` (here
`JSValue.null`) when `v` is not an object or lacks the key. -/
def getField (v : JSValue) (key : String) : JSValue :=
  match v with
  | .obj fs => (lookupField fs key).getD .null
  | _ => .null

/-- Predicate used by counterexamples: is a value the `null` model. -/
def JSValue.isNull : JSValue → Bool
  | .null => true
  | _ => false

/-- Tests whether the second character list occurs at the start of the
first (helper for the JavaScript string-method models below). -/
def startsWithL : List Char → List Char → Bool
  | _, [] => true
  | [], _ :: _ => false
  | a :: as, b :: bs => a == b && startsWithL as bs

/-- Tests whether the second character list occurs contiguously anywhere in
the first. -/
def containsSub : List Char → List Char → Bool
  | [], pat => pat.isEmpty
  | a :: as, pat => startsWithL (a :: as) pat || containsSub as pat

/-- Model of JavaScript `s.includes(sub)`: contiguous substring test. -/
def jsIncludes (s sub : String) : Bool :=
  containsSub s.data sub.data

/-- Model of JavaScript `s.toLowerCase()` for the ASCII strings involved
(character-wise ASCII lowercasing). -/
def jsToLower (s : String) : String :=
  String.mk (s.data.map Char.toLower)

/-- Model of JavaScript `s.endsWith(t)`. -/
def jsEndsWith (s t : String) : Bool :=
  startsWithL s.data.reverse t.data.reverse

/-- Model of JavaScript `s.trim()` (whitespace stripped from both ends). -/
def jsTrim (s : String) : String :=
  String.mk (((s.data.dropWhile Char.isWhitespace).reverse.dropWhile Char.isWhitespace).reverse)

/-- Model of a GraphQL introspection TypeRef (`src/graphql-tools.ts` works
on objects of shape `\x7bkind, name, ofType\x7d`).  Wrapper nodes
(`NON_NULL`, `LIST`) carry an `ofType`; terminal named nodes carry an
optional `name` (`none` models a `null` name in the introspection JSON). -/
inductive TypeRef where
  | named (name : Option String)
  | list (ofType : TypeRef)
  | nonNull (ofType : TypeRef)
deriving DecidableEq

/-- Model of the JavaScript expression `typeObj.name || 'String'`: a `null`
(or empty, hence falsy) name falls back to `"String"`. -/
def nameOrString : Option String → String
  | none => "String"
  | some s => if s = "" then "String" else s

/-- Embedding of `getGraphQLType` (src/graphql-tools.ts lines 342-357):
renders a TypeRef as GraphQL type syntax, `!` for NON_NULL, `[...]` for
LIST, the name (or `"String"` fallback) for a terminal named type. -/
def getGraphQLType : TypeRef → String
  | .nonNull t => getGraphQLType t ++ "!"
  | .list t => "[" ++ getGraphQLType t ++ "]"
  | .named n => nameOrString n

/-- Embedding of `getBaseType` (src/graphql-tools.ts lines 403-415): the
terminal named type of a TypeRef chain (wrapper nodes have `null` names in
introspection data, so the code's name-first check reduces to unwinding
`ofType` until the named node). -/
def getBaseType : TypeRef → String
  | .named n => nameOrString n
  | .list t => getBaseType t
  | .nonNull t => getBaseType t

/-- Embedding of `wrapListValue` (src/graphql-tools.ts lines 360-370). -/
def wrapListValue (value : JSValue) (isList : Bool) : JSValue :=
  if !isList then value
  else match value with
    | .arr vs => .arr vs
    | v => .arr [v]

/-- Embedding of `getPlaceholderValue` (src/graphql-tools.ts lines
373-400): a type-keyed placeholder for the terminal named type, wrapped in
a one-element array when the TypeRef is LIST at the top or NON_NULL of
LIST. -/
def getPlaceholderValue (typeObj : TypeRef) : JSValue :=
  let baseType := getBaseType typeObj
  let isList : Bool :=
    match typeObj with
    | .list _ => true
    | .nonNull (.list _) => true
    | _ => false
  let value : JSValue :=
    if baseType = "Int" then .num 1
    else if baseType = "Float" then .num 1
    else if baseType = "Boolean" then .bool true
    else if baseType = "ID" then .str "ID1"
    else if jsEndsWith baseType "Input" then .obj []
    else .str (baseType ++ "1")
  wrapListValue value isList

/-- Wrapper layers of a TypeRef chain, used to quantify over all chains of
nested NON_NULL/LIST wrappers in the claims. -/
inductive Wrapper where
  | NN
  | L
deriving DecidableEq

/-- Builds the TypeRef chain with the given wrappers (outermost first)
around a terminal named type. -/
def mkTypeRefChain : List Wrapper → Option String → TypeRef
  | [], n => .named n
  | .NN :: ws, n => .nonNull (mkTypeRefChain ws n)
  | .L :: ws, n => .list (mkTypeRefChain ws n)

/-- Specification-side rendering, written from the claim's words: the
terminal name decorated with a trailing `!` for each NON_NULL layer and
enclosing `[...]` for each LIST layer, outermost wrapper first. -/
def renderTypeSpec : List Wrapper → String → String
  | [], t => t
  | .NN :: ws, t => renderTypeSpec ws t ++ "!"
  | .L :: ws, t => "[" ++ renderTypeSpec ws t ++ "]"

/-- C1: for every chain of NON_NULL/LIST wrappers around a named terminal,
`getGraphQLType` returns the terminal's name (or the `"String"` fallback
when no name resolves) decorated outermost-first with `!` per NON_NULL and
`[...]` per LIST. -/
theorem getGraphQLType_renders_chain (ws : List Wrapper) (n : Option String) :
    getGraphQLType (mkTypeRefChain ws n) = renderTypeSpec ws (nameOrString n) := by
  induction ws with
  | nil => rfl
  | cons w ws ih =>
    cases w <;> simp [mkTypeRefChain, getGraphQLType, renderTypeSpec, ih]

example : getGraphQLType (mkTypeRefChain [.NN, .L, .NN] (some "Int")) = "[Int!]!" := by
  decide

example : getGraphQLType (.named none) = "String" := by decide

/-- Claim-side notion for C4: does a LIST wrapper occur at any wrapping
level of the TypeRef. -/
def hasListWrapper : TypeRef → Bool
  | .named _ => false
  | .list _ => true
  | .nonNull t => hasListWrapper t

/-- Discriminator for the NON_NULL wrapper. -/
def isNonNull : TypeRef → Bool
  | .nonNull _ => true
  | _ => false

/-- GraphQL type-system well-formedness of a type reference: a NON_NULL
wrapper never directly wraps another NON_NULL wrapper.  Every argument
TypeRef delivered by GraphQL introspection satisfies this invariant. -/
def wfTypeRef : TypeRef → Bool
  | .named _ => true
  | .list t => wfTypeRef t
  | .nonNull t => !(isNonNull t) && wfTypeRef t

/-- Specification-side placeholder table, written from the claim's words:
`Int` yields 1, `Float` yields 1.0 (the same JavaScript number as 1),
`Boolean` yields true, `ID` yields "ID1", a name ending in `Input` yields
the empty object, and any other name `T` yields the string "T1". -/
def placeholderSpec (name : String) : JSValue :=
  if name = "Int" then .num 1
  else if name = "Float" then .num 1
  else if name = "Boolean" then .bool true
  else if name = "ID" then .str "ID1"
  else if jsEndsWith name "Input" then .obj []
  else .str (name ++ "1")

/-- The placeholder table never produces an array, so wrapping for a list
type always yields a one-element array. -/
theorem wrapListValue_placeholderSpec (name : String) :
    wrapListValue (placeholderSpec name) true = .arr [placeholderSpec name] := by
  unfold placeholderSpec
  split_ifs <;> simp [wrapListValue]

/-- C4: for every well-formed argument TypeRef, the generated placeholder
value is the type-keyed placeholder of the terminal named type, wrapped in
a one-element array exactly when a LIST wrapper occurs at any wrapping
level.  (Well-formedness — NON_NULL never directly wrapping NON_NULL — is
the GraphQL type-system invariant satisfied by every introspected argument
type; the code only inspects the top two wrapper levels, which under this
invariant is equivalent to inspecting every level.) -/
theorem getPlaceholderValue_keyed_and_listWrapped (t : TypeRef)
    (h : wfTypeRef t = true) :
    getPlaceholderValue t =
      (if hasListWrapper t then JSValue.arr [placeholderSpec (getBaseType t)]
       else placeholderSpec (getBaseType t)) := by
  cases t with
  | named n => rfl
  | list u =>
    show wrapListValue (placeholderSpec (getBaseType (.list u))) true = _
    simp [hasListWrapper, wrapListValue_placeholderSpec]
  | nonNull u =>
    cases u with
    | named m => rfl
    | list v =>
      show wrapListValue (placeholderSpec (getBaseType (.nonNull (.list v)))) true = _
      simp [hasListWrapper, wrapListValue_placeholderSpec]
    | nonNull v =>
      simp [wfTypeRef, isNonNull] at h

/-- C4 witness: the concrete chain NON_NULL(LIST(NON_NULL(Int))) is
well-formed and yields the one-element array [1]. -/
theorem getPlaceholderValue_keyed_and_listWrapped_witness :
    wfTypeRef (.nonNull (.list (.nonNull (.named (some "Int"))))) = true ∧
    getPlaceholderValue (.nonNull (.list (.nonNull (.named (some "Int"))))) =
      (if hasListWrapper (.nonNull (.list (.nonNull (.named (some "Int"))))) then
        JSValue.arr [placeholderSpec (getBaseType (.nonNull (.list (.nonNull (.named (some "Int"))))))]
       else placeholderSpec (getBaseType (.nonNull (.list (.nonNull (.named (some "Int"))))))) :=
  ⟨by decide, getPlaceholderValue_keyed_and_listWrapped _ (by decide)⟩

example : getPlaceholderValue (.nonNull (.list (.nonNull (.named (some "Int"))))) =
    .arr [.num 1] := rfl

/-- Model of a GraphQL argument descriptor (`\x7bname, type\x7d` as used by
the example generator; the description field is never read there). -/
structure Arg where
  name : String
  type : TypeRef
deriving DecidableEq

/-- Model of a GraphQL operation descriptor as returned by the
introspection helpers (`name`, optional `description`, argument list). -/
structure Operation where
  name : String
  description : Option String
  args : List Arg
deriving DecidableEq

/-- Model of `operationType` (the `'query' | 'mutation'` union). -/
inductive OpType where
  | query
  | mutation
deriving DecidableEq

/-- String value of the operation type. -/
def OpType.render : OpType → String
  | .query => "query"
  | .mutation => "mutation"

/-- Model of the JavaScript expression
`name.charAt(0).toUpperCase() + name.slice(1)`. -/
def capitalize (s : String) : String :=
  match s.data with
  | [] => ""
  | c :: cs => String.mk (c.toUpper :: cs)

/-- Embedding of `buildArgumentDefinitions` (src/graphql-tools.ts lines
315-333): the parenthesized `$name: Type` list and, in the same pass, the
placeholder variable bindings pushed into the variables record. -/
def buildArgumentDefinitions (args : List Arg) : String × List (String × JSValue) :=
  let argStrings := args.map (fun arg => "$" ++ arg.name ++ ": " ++ getGraphQLType arg.type)
  let vars := args.map (fun arg => (arg.name, getPlaceholderValue arg.type))
  (if argStrings.length > 0 then "(" ++ String.intercalate ", " argStrings ++ ")" else "",
   vars)

/-- Embedding of `buildArgumentReferences` (src/graphql-tools.ts lines
336-339): the parenthesized `name: $name` list of the invocation. -/
def buildArgumentReferences (args : List Arg) : String :=
  let paramStrings := args.map (fun arg => arg.name ++ ": $" ++ arg.name)
  if paramStrings.length > 0 then "(" ++ String.intercalate ", " paramStrings ++ ")" else ""

/-- Embedding of `generateQueryExample` (src/graphql-tools.ts lines
281-312).  The first component is the generated query text, the second the
variables record (an empty falsy name yields the degenerate empty
template). -/
def generateQueryExample (operation : Operation) (operationType : OpType) :
    String × List (String × JSValue) :=
  if operation.name = "" then ("", [])
  else
    let hasArgs := operation.args.length > 0
    let defs := buildArgumentDefinitions operation.args
    let queryText :=
      operationType.render ++ " " ++ capitalize operation.name
      ++ (if hasArgs then defs.1 else "")
      ++ " \x7b\n  " ++ operation.name
      ++ (if hasArgs then buildArgumentReferences operation.args else "")
      ++ " \x7b\n    # Add required fields here\n    id\n    name\n  \x7d\n\x7d"
    (queryText, if hasArgs then defs.2 else [])

/-- Uppercasing a character other than `'('` never yields `'('` (the ASCII
uppercase range 65-90 does not contain code point 40). -/
theorem toUpper_ne_lparen (c : Char) (h : c ≠ '(') : c.toUpper ≠ '(' := by
  by_cases hn : c.toNat ≥ 97 ∧ c.toNat ≤ 122
  · intro he
    have he2 : Char.ofNat (c.toNat - 32) = '(' := by
      rw [← he]
      simp [Char.toUpper, hn]
    have hv : (c.toNat - 32).isValidChar := Or.inl (by omega)
    have h40 : (Char.ofNat (c.toNat - 32)).toNat = c.toNat - 32 := by
      rw [Char.ofNat, dif_pos hv]
      rfl
    rw [he2] at h40
    have hp : ('(' : Char).toNat = 40 := by decide
    omega
  · intro he
    apply h
    rw [← he]
    simp [Char.toUpper, hn]

/-- C5: for every operation with an empty argument list, the generated
query text is exactly the header plus invocation template, with no
parenthesized variable-declaration list and no parenthesized argument
list, and the variables record is empty; in particular the text contains
no parenthesis character at all when the name contains none. -/
theorem generateQueryExample_no_args (op : Operation) (t : OpType)
    (h : op.args = []) (hne : op.name ≠ "") (hp : ¬ '(' ∈ op.name.data) :
    (generateQueryExample op t).1 =
      t.render ++ " " ++ capitalize op.name ++ " \x7b\n  " ++ op.name
        ++ " \x7b\n    # Add required fields here\n    id\n    name\n  \x7d\n\x7d"
    ∧ (generateQueryExample op t).2 = []
    ∧ ¬ '(' ∈ (generateQueryExample op t).1.data := by
  have hcap : ¬ '(' ∈ (capitalize op.name).data := by
    unfold capitalize
    cases hd : op.name.data with
    | nil => simp
    | cons c cs =>
      rw [hd] at hp
      simp only [List.mem_cons, not_or] at hp ⊢
      exact ⟨fun he => toUpper_ne_lparen c (fun hc => hp.1 hc.symm) he.symm, hp.2⟩
  have heq : (generateQueryExample op t).1 =
      t.render ++ " " ++ capitalize op.name ++ " \x7b\n  " ++ op.name
        ++ " \x7b\n    # Add required fields here\n    id\n    name\n  \x7d\n\x7d" := by
    simp [generateQueryExample, h, hne]
  refine ⟨heq, by simp [generateQueryExample, h, hne], ?_⟩
  rw [heq]
  simp only [String.data_append, List.mem_append, not_or]
  exact ⟨⟨⟨⟨⟨by cases t <;> decide, by decide⟩, hcap⟩, by decide⟩, hp⟩, by decide⟩

/-- C5 witness: a concrete zero-argument operation generates the
parenthesis-free template with an empty variables record. -/
theorem generateQueryExample_no_args_witness :
    (generateQueryExample (Operation.mk "heartbeat" none []) OpType.query).1 =
      OpType.query.render ++ " " ++ capitalize "heartbeat" ++ " \x7b\n  " ++ "heartbeat"
        ++ " \x7b\n    # Add required fields here\n    id\n    name\n  \x7d\n\x7d"
    ∧ (generateQueryExample (Operation.mk "heartbeat" none []) OpType.query).2 = []
    ∧ ¬ '(' ∈ (generateQueryExample (Operation.mk "heartbeat" none []) OpType.query).1.data :=
  generateQueryExample_no_args (Operation.mk "heartbeat" none []) OpType.query rfl
    (by decide) (by decide)

/-- Embedding of the exact-match step of the generate-query handler
(src/tools/query-tools.ts lines 123-125): first candidate whose name
equals the requested name case-insensitively. -/
def findExact (operations : List Operation) (operationName : String) : Option Operation :=
  operations.find? (fun op => jsToLower op.name == jsToLower operationName)

/-- Embedding of the substring-filter step (src/tools/query-tools.ts lines
129-131): candidates whose lowercased name contains the lowercased
requested name. -/
def substringMatches (operations : List Operation) (operationName : String) : List Operation :=
  operations.filter (fun op => jsIncludes (jsToLower op.name) (jsToLower operationName))

/-- Stable insertion of an operation into a list sorted ascending by name
length, placing it before the first strictly longer element. -/
def insertByLen (a : Operation) : List Operation → List Operation
  | [] => [a]
  | b :: bs => if b.name.length < a.name.length then b :: insertByLen a bs else a :: b :: bs

/-- Model of `matchingOps.sort((a, b) => a.name.length - b.name.length)`
(src/tools/query-tools.ts line 135).  ECMAScript 2019 requires
`Array.prototype.sort` to be stable, so any stable sort by name length is
observationally the code's sort; this one processes elements left to
right, keeping earlier elements before later equal-length ones. -/
def jsSortByNameLen : List Operation → List Operation
  | [] => []
  | a :: as => insertByLen a (jsSortByNameLen as)

/-- Specification-side selection: the earliest element of minimal name
length (ties resolved to the earlier element). -/
def firstMinByLen : List Operation → Option Operation
  | [] => none
  | a :: as =>
    match firstMinByLen as with
    | none => some a
    | some b => if a.name.length ≤ b.name.length then some a else some b

/-- Embedding of the operation-resolution logic of the generate-query
handler (src/tools/query-tools.ts lines 122-140): exact case-insensitive
match first; otherwise the head of the substring matches sorted ascending
by name length. -/
def resolveOperation (operations : List Operation) (operationName : String) : Option Operation :=
  match findExact operations operationName with
  | some op => some op
  | none =>
    let matchingOps := substringMatches operations operationName
    if matchingOps.length > 0 then (jsSortByNameLen matchingOps).head? else none

theorem insertByLen_ne_nil (a : Operation) (s : List Operation) : insertByLen a s ≠ [] := by
  cases s with
  | nil => simp [insertByLen]
  | cons b bs =>
    unfold insertByLen
    split <;> simp

theorem jsSortByNameLen_eq_nil_iff (l : List Operation) : jsSortByNameLen l = [] ↔ l = [] := by
  cases l with
  | nil => simp [jsSortByNameLen]
  | cons a as => simp [jsSortByNameLen, insertByLen_ne_nil]

theorem head?_insertByLen (a : Operation) (s : List Operation) :
    (insertByLen a s).head? =
      some (match s with
            | [] => a
            | b :: _ => if b.name.length < a.name.length then b else a) := by
  cases s with
  | nil => rfl
  | cons b bs =>
    unfold insertByLen
    split
    case isTrue h =>
      simp only [List.head?_cons]
      rw [if_pos h]
    case isFalse h =>
      simp only [List.head?_cons]
      rw [if_neg h]

theorem firstMinByLen_eq_none_iff (l : List Operation) : firstMinByLen l = none ↔ l = [] := by
  cases l with
  | nil => simp [firstMinByLen]
  | cons a as =>
    unfold firstMinByLen
    constructor
    · intro h
      split at h <;> simp_all
      split at h <;> simp_all
    · intro h
      simp at h

theorem head?_jsSortByNameLen (l : List Operation) :
    (jsSortByNameLen l).head? = firstMinByLen l := by
  induction l with
  | nil => rfl
  | cons a as ih =>
    show (insertByLen a (jsSortByNameLen as)).head? = _
    rw [head?_insertByLen]
    cases hs : jsSortByNameLen as with
    | nil =>
      have : as = [] := (jsSortByNameLen_eq_nil_iff as).mp hs
      subst this
      rfl
    | cons b bs =>
      rw [hs] at ih
      simp only [List.head?_cons] at ih
      unfold firstMinByLen
      rw [← ih]
      show some (if b.name.length < a.name.length then b else a)
        = if a.name.length ≤ b.name.length then some a else some b
      rcases le_or_lt a.name.length b.name.length with hle | hlt
      · rw [if_neg (by omega), if_pos hle]
      · rw [if_pos hlt, if_neg (by omega)]

theorem firstMinByLen_mem (l : List Operation) (op : Operation)
    (h : firstMinByLen l = some op) : op ∈ l := by
  induction l with
  | nil => simp [firstMinByLen] at h
  | cons a as ih =>
    unfold firstMinByLen at h
    split at h
    · simp at h
      simp [h]
    case h_2 b heq =>
      split at h
      · simp at h
        simp [h]
      · simp at h
        subst h
        exact List.mem_cons_of_mem a (ih heq)

theorem firstMinByLen_min (l : List Operation) (op : Operation)
    (h : firstMinByLen l = some op) :
    ∀ b ∈ l, op.name.length ≤ b.name.length := by
  induction l generalizing op with
  | nil => simp [firstMinByLen] at h
  | cons a as ih =>
    unfold firstMinByLen at h
    split at h
    case h_1 heq =>
      have hnil : as = [] := (firstMinByLen_eq_none_iff as).mp heq
      subst hnil
      simp at h
      subst h
      intro b hb
      simp at hb
      subst hb
      exact Nat.le_refl _
    case h_2 c heq =>
      have hmin := ih c heq
      by_cases hac : a.name.length ≤ c.name.length
      · rw [if_pos hac] at h
        simp at h
        subst h
        intro b hb
        rcases List.mem_cons.mp hb with rfl | hb
        · exact Nat.le_refl _
        · exact Nat.le_trans hac (hmin b hb)
      · rw [if_neg hac] at h
        simp at h
        subst h
        intro b hb
        rcases List.mem_cons.mp hb with rfl | hb
        · omega
        · exact hmin b hb

theorem firstMinByLen_first (l₁ : List Operation) (op : Operation) (l₂ : List Operation)
    (h₁ : ∀ b ∈ l₁, op.name.length < b.name.length)
    (h₂ : ∀ b ∈ l₂, op.name.length ≤ b.name.length) :
    firstMinByLen (l₁ ++ op :: l₂) = some op := by
  induction l₁ with
  | nil =>
    show firstMinByLen (op :: l₂) = some op
    unfold firstMinByLen
    cases hm : firstMinByLen l₂ with
    | none => rfl
    | some b =>
      have hb : b ∈ l₂ := firstMinByLen_mem l₂ b hm
      simp [h₂ b hb]
  | cons a l₁ ih =>
    have ih' := ih (fun b hb => h₁ b (List.mem_cons_of_mem a hb))
    show firstMinByLen (a :: (l₁ ++ op :: l₂)) = some op
    unfold firstMinByLen
    rw [ih']
    have ha := h₁ a (List.mem_cons_self a l₁)
    show (if a.name.length ≤ op.name.length then some a else some op) = some op
    rw [if_neg (by omega)]

/-- C2: when some candidate's name equals the requested name
case-insensitively, resolution returns the exact-match result directly
(the substring branch is never consulted) and that result is a candidate
whose name matches exactly. -/
theorem resolveOperation_exact_precedence (ops : List Operation) (q : String)
    (h : ∃ op ∈ ops, jsToLower op.name = jsToLower q) :
    resolveOperation ops q = findExact ops q
    ∧ ∃ op, findExact ops q = some op ∧ jsToLower op.name = jsToLower q := by
  obtain ⟨op, hmem, hlow⟩ := h
  have hsome : (findExact ops q).isSome := by
    rw [findExact, List.find?_isSome]
    exact ⟨op, hmem, by simp [hlow]⟩
  obtain ⟨a, ha⟩ := Option.isSome_iff_exists.mp hsome
  have ha' : ops.find? (fun op => jsToLower op.name == jsToLower q) = some a := ha
  have hpa := List.find?_some ha'
  constructor
  · unfold resolveOperation
    rw [ha]
  · exact ⟨a, ha, by simpa using hpa⟩

/-- C2 witness: with candidates named "order" and "orders", resolving
"Order" returns the candidate named "order" via the exact-match branch. -/
theorem resolveOperation_exact_precedence_witness :
    (resolveOperation [Operation.mk "order" none [], Operation.mk "orders" none []] "Order"
        = findExact [Operation.mk "order" none [], Operation.mk "orders" none []] "Order"
      ∧ ∃ op, findExact [Operation.mk "order" none [], Operation.mk "orders" none []] "Order"
          = some op ∧ jsToLower op.name = jsToLower "Order")
    ∧ resolveOperation [Operation.mk "order" none [], Operation.mk "orders" none []] "Order"
        = some (Operation.mk "order" none []) :=
  ⟨resolveOperation_exact_precedence _ _
      ⟨Operation.mk "order" none [], by decide, by decide⟩,
    by decide⟩

/-- C3: when no case-insensitive exact match exists but at least one
candidate's lowercased name contains the lowercased requested name,
resolution returns a substring match of minimal name length among all
substring matches. -/
theorem resolveOperation_shortest_substring (ops : List Operation) (q : String)
    (hx : findExact ops q = none)
    (hm : substringMatches ops q ≠ []) :
    ∃ op, resolveOperation ops q = some op
      ∧ op ∈ substringMatches ops q
      ∧ jsIncludes (jsToLower op.name) (jsToLower q) = true
      ∧ ∀ b ∈ substringMatches ops q, op.name.length ≤ b.name.length := by
  obtain ⟨op, hop⟩ : ∃ op, firstMinByLen (substringMatches ops q) = some op := by
    cases hfm : firstMinByLen (substringMatches ops q) with
    | none => exact absurd ((firstMinByLen_eq_none_iff _).mp hfm) hm
    | some op => exact ⟨op, rfl⟩
  have hmem : op ∈ substringMatches ops q := firstMinByLen_mem _ _ hop
  refine ⟨op, ?_, hmem, ?_, firstMinByLen_min _ _ hop⟩
  · unfold resolveOperation
    rw [hx]
    show (if (substringMatches ops q).length > 0
          then (jsSortByNameLen (substringMatches ops q)).head? else none) = some op
    have hlen : (substringMatches ops q).length > 0 := by
      cases hsm : substringMatches ops q with
      | nil => exact absurd hsm hm
      | cons _ _ => simp
    rw [if_pos hlen, head?_jsSortByNameLen, hop]
  · exact (List.mem_filter.mp hmem).2

/-- C3 witness: with candidates "getOrder" and "getOrderDetails" and no
exact match for "Order", resolution returns "getOrder", the shorter
substring match. -/
theorem resolveOperation_shortest_substring_witness :
    (∃ op, resolveOperation
          [Operation.mk "getOrder" none [], Operation.mk "getOrderDetails" none []] "Order"
        = some op
      ∧ op ∈ substringMatches
          [Operation.mk "getOrder" none [], Operation.mk "getOrderDetails" none []] "Order"
      ∧ jsIncludes (jsToLower op.name) (jsToLower "Order") = true
      ∧ ∀ b ∈ substringMatches
          [Operation.mk "getOrder" none [], Operation.mk "getOrderDetails" none []] "Order",
          op.name.length ≤ b.name.length)
    ∧ resolveOperation
        [Operation.mk "getOrder" none [], Operation.mk "getOrderDetails" none []] "Order"
      = some (Operation.mk "getOrder" none []) :=
  ⟨resolveOperation_shortest_substring _ _ (by decide) (by decide), by decide⟩

/-- C10: when no exact match exists and the requested name's substring
matches are decomposed around an element `op` that is strictly shorter
than everything before it and no longer than everything after it (i.e.
`op` is the earliest match of minimal name length, in the candidate
list's declaration order, which the stable sort preserves), resolution
returns exactly `op`; the resolved operation is thus a deterministic
function of the candidate list and the requested name. -/
theorem resolveOperation_stable_tie (ops : List Operation) (q : String)
    (l₁ : List Operation) (op : Operation) (l₂ : List Operation)
    (hx : findExact ops q = none)
    (hd : substringMatches ops q = l₁ ++ op :: l₂)
    (h₁ : ∀ b ∈ l₁, op.name.length < b.name.length)
    (h₂ : ∀ b ∈ l₂, op.name.length ≤ b.name.length) :
    resolveOperation ops q = some op := by
  unfold resolveOperation
  rw [hx]
  show (if (substringMatches ops q).length > 0
        then (jsSortByNameLen (substringMatches ops q)).head? else none) = some op
  have hlen : (substringMatches ops q).length > 0 := by
    rw [hd]
    simp
  rw [if_pos hlen, head?_jsSortByNameLen, hd, firstMinByLen_first l₁ op l₂ h₁ h₂]

/-- C10 witness: among the equal-length substring matches "orx" and "zor"
for "or" (with the longer "fooor" before them), resolution returns "orx",
the earliest of minimal length in declaration order. -/
theorem resolveOperation_stable_tie_witness :
    resolveOperation
      [Operation.mk "fooor" none [], Operation.mk "orx" none [], Operation.mk "zor" none []]
      "or" = some (Operation.mk "orx" none []) :=
  resolveOperation_stable_tie _ "or"
    [Operation.mk "fooor" none []] (Operation.mk "orx" none []) [Operation.mk "zor" none []]
    (by decide) (by decide) (by decide) (by decide)

/-- Model of JavaScript `s.toUpperCase()` for the ASCII strings involved. -/
def jsToUpper (s : String) : String :=
  String.mk (s.data.map Char.toUpper)

/-- Indentation helper for the `JSON.stringify(v, null, 2)` model. -/
def spaces (n : Nat) : String :=
  String.mk (List.replicate n ' ')

/-- Escapes one character for a JSON string literal (the escapes relevant
to the strings arising here). -/
def escapeJsonChar (c : Char) : String :=
  if c = '"' then "\\\""
  else if c = '\\' then "\\\\"
  else if c = '\n' then "\\n"
  else if c = '\t' then "\\t"
  else if c = '\r' then "\\r"
  else String.singleton c

/-- Escapes a string for a JSON string literal. -/
def escapeJson (s : String) : String :=
  String.join (s.data.map escapeJsonChar)

mutual

/-- Model of `JSON.stringify(·, null, 2)` at a given current indent. -/
def stringifyAux : JSValue → Nat → String
  | .null, _ => "null"
  | .bool true, _ => "true"
  | .bool false, _ => "false"
  | .num n, _ => toString n
  | .str s, _ => "\"" ++ escapeJson s ++ "\""
  | .arr [], _ => "[]"
  | .arr (v :: vs), ind =>
    "[\n" ++ String.intercalate ",\n" (stringifyList (v :: vs) (ind + 2))
      ++ "\n" ++ spaces ind ++ "]"
  | .obj [], _ => "\x7b\x7d"
  | .obj (f :: fs), ind =>
    "\x7b\n" ++ String.intercalate ",\n" (stringifyFields (f :: fs) (ind + 2))
      ++ "\n" ++ spaces ind ++ "\x7d"

/-- Renders each array element at the given indent. -/
def stringifyList : List JSValue → Nat → List String
  | [], _ => []
  | v :: vs, ind => (spaces ind ++ stringifyAux v ind) :: stringifyList vs ind

/-- Renders each object field at the given indent. -/
def stringifyFields : List (String × JSValue) → Nat → List String
  | [], _ => []
  | (k, v) :: fs, ind =>
    (spaces ind ++ "\"" ++ escapeJson k ++ "\": " ++ stringifyAux v ind)
      :: stringifyFields fs ind

end

/-- Model of `JSON.stringify(v, null, 2)`. -/
def jsonStringify2 (v : JSValue) : String :=
  stringifyAux v 0

mutual

/-- Model of JavaScript string coercion (template-literal interpolation)
of a value. -/
def jsDisplay : JSValue → String
  | .null => "null"
  | .bool true => "true"
  | .bool false => "false"
  | .num n => toString n
  | .str s => s
  | .arr vs => String.intercalate "," (jsDisplayList vs)
  | .obj _ => "[object Object]"

/-- Coerces each array element for display. -/
def jsDisplayList : List JSValue → List String
  | [] => []
  | v :: vs => jsDisplay v :: jsDisplayList vs

end

/-- Model of a `\x7btype: "text", text\x7d` MCP content item. -/
structure TextContent where
  type : String
  text : String
deriving DecidableEq

/-- Model of an MCP tool response (`\x7bcontent: [...]\x7d`). -/
structure McpResponse where
  content : List TextContent
deriving DecidableEq

/-- Embedding of `createErrorResponse` (src/tools/helpers.ts lines 35-49):
a single text item "Error: message", with the suggestion appended after a
blank line only when truthy. -/
def createErrorResponse (message : String) (suggestion : Option String) : McpResponse :=
  let text := "Error: " ++ message ++
    (match suggestion with
     | some s => if s ≠ "" then "\n\n" ++ s else ""
     | none => "")
  ⟨[⟨"text", text⟩]⟩

/-- Embedding of `createSuccessResponse` (src/tools/helpers.ts lines
52-61): a single text item. -/
def createSuccessResponse (text : String) : McpResponse :=
  ⟨[⟨"text", text⟩]⟩

/-- Embedding of `getErrorSuggestion` (src/tools/helpers.ts lines 82-91). -/
def getErrorSuggestion (errorMessage : String) : String :=
  if jsIncludes errorMessage "syntax" || jsIncludes errorMessage "parsing" then
    "There appears to be a syntax error in your query. Try using the generate-query tool to create a valid query template."
  else if jsIncludes errorMessage "authentication" || jsIncludes errorMessage "authorization"
      || jsIncludes errorMessage "401" || jsIncludes errorMessage "403" then
    "This appears to be an authentication error. The server may be having issues with the OAuth token. Please check your authentication credentials in the .env file."
  else if jsIncludes errorMessage "network" || jsIncludes errorMessage "ECONNREFUSED"
      || jsIncludes errorMessage "timeout" then
    "There was a network error connecting to the GraphQL server. Please check your GRAPHQL_URL in the .env file and ensure the server is running."
  else ""

/-- Embedding of `extractErrorMessage` (src/tools/helpers.ts lines 12-32):
the first entry of a non-empty `errors` array (the string itself, its
truthy `message`, or a fixed fallback), else a truthy top-level
`error.message`, else `null`. -/
def extractErrorMessage (result : JSValue) : JSValue :=
  match getField result "errors" with
  | .arr (firstError :: _) =>
    match firstError with
    | .str s => .str s
    | _ =>
      if truthy (getField firstError "message") then getField firstError "message"
      else .str "Unknown GraphQL error format"
  | _ =>
    let m := getField (getField result "error") "message"
    if truthy m then m else .null

/-- Embedding of `generateQueryTool.handler` (src/tools/query-tools.ts
lines 113-179).  The lower-layer operations fetch
(`getAvailableQueries`/`getAvailableMutations`) is passed as an `Except`:
a thrown error is its `error` case, which the handler's catch converts to
a textual error response. -/
def generateQueryHandler (fetched : Except String (List Operation))
    (operationName : String) (operationType : OpType) : McpResponse :=
  match fetched with
  | .error message =>
    createErrorResponse
      ("Error generating " ++ operationType.render ++ " template: " ++ message) none
  | .ok operations =>
    match resolveOperation operations operationName with
    | none =>
      createErrorResponse
        ("No matching " ++ operationType.render ++ " found for \"" ++ operationName ++ "\".")
        (some ("Try using list-" ++ operationType.render
          ++ "s tool with a search term to find available operations."))
    | some operation =>
      let generated := generateQueryExample operation operationType
      if generated.1 = "" then
        createErrorResponse
          ("Error generating " ++ operationType.render ++ " example for \""
            ++ operationName ++ "\".") none
      else
        createSuccessResponse
          ("# " ++ jsToUpper operationType.render ++ ": " ++ operation.name ++ "\n"
            ++ (match operation.description with
                | some d => if d ≠ "" then "# Description: " ++ d else ""
                | none => "")
            ++ "\n\n# Query Text:\n```graphql\n" ++ generated.1
            ++ "\n```\n\n# Variables:\n```json\n" ++ jsonStringify2 (.obj generated.2)
            ++ "\n```\n\n# Usage:\nTo execute this " ++ operationType.render
            ++ ", use the execute-query tool with the query text and variables.")

/-- C8: the generate-query handler always returns an MCP envelope with a
single text content item (it never throws): a lower-layer error becomes a
textual error response, a failed resolution becomes a textual "not found"
response with a discovery suggestion, and empty generated query text
becomes a textual generation-error response. -/
theorem generateQueryHandler_total (fetched : Except String (List Operation))
    (operationName : String) (operationType : OpType) :
    ((generateQueryHandler fetched operationName operationType).content.map TextContent.type
      = ["text"])
    ∧ (∀ e, fetched = .error e →
        generateQueryHandler fetched operationName operationType =
          createErrorResponse
            ("Error generating " ++ operationType.render ++ " template: " ++ e) none)
    ∧ (∀ ops, fetched = .ok ops → resolveOperation ops operationName = none →
        generateQueryHandler fetched operationName operationType =
          createErrorResponse
            ("No matching " ++ operationType.render ++ " found for \"" ++ operationName ++ "\".")
            (some ("Try using list-" ++ operationType.render
              ++ "s tool with a search term to find available operations.")))
    ∧ (∀ ops op, fetched = .ok ops → resolveOperation ops operationName = some op →
        (generateQueryExample op operationType).1 = "" →
        generateQueryHandler fetched operationName operationType =
          createErrorResponse
            ("Error generating " ++ operationType.render ++ " example for \""
              ++ operationName ++ "\".") none) := by
  refine ⟨?_, ?_, ?_, ?_⟩
  · cases fetched with
    | error e => rfl
    | ok ops =>
      show ((match resolveOperation ops operationName with
             | none => _
             | some operation => _) : McpResponse).content.map TextContent.type = ["text"]
      cases hr : resolveOperation ops operationName with
      | none => rfl
      | some op =>
        by_cases hq : (generateQueryExample op operationType).1 = ""
        · simp only [hq, if_pos rfl]
          rfl
        · simp only [if_neg hq]
          rfl
  · intro e he
    subst he
    rfl
  · intro ops he hr
    subst he
    show (match resolveOperation ops operationName with
          | none => _
          | some operation => _) = _
    rw [hr]
  · intro ops op he hr hq
    subst he
    show (match resolveOperation ops operationName with
          | none => _
          | some operation => _) = _
    rw [hr]
    simp [hq]

/-- C8 witness: a thrown lower-layer error ("boom") is converted into the
textual error response rather than propagated. -/
theorem generateQueryHandler_total_witness :
    generateQueryHandler (.error "boom") "x" OpType.query =
      createErrorResponse
        ("Error generating " ++ OpType.query.render ++ " template: " ++ "boom") none :=
  (generateQueryHandler_total (.error "boom") "x" OpType.query).2.1 "boom" rfl

/-- Text of the validate-only success response (src/tools/query-tools.ts
lines 54-66): embeds the query verbatim and the stringified variables,
defaulting to the empty object. -/
def validateOnlyText (query : String) (vars : Option JSValue) : String :=
  "Query validated successfully. Ready to execute:\n\nQuery:\n```graphql\n" ++ query
    ++ "\n```\n\nVariables:\n```json\n" ++ jsonStringify2 (vars.getD (.obj []))
    ++ "\n```\n\nTo execute this query, call the execute-query tool again with validateOnly set to false."

/-- Embedding of `executeQueryTool.handler` (src/tools/query-tools.ts
lines 26-105).  The GraphQL execution (`executeGraphQLQuery`) is passed as
a state-passing oracle `exec` over an abstract world `α` (covering the
token and schema caches); a thrown lower-layer error is its `Except.error`
case, handled by the handler's catch.  The returned world is the world
after the handler. -/
def executeQueryHandler {α : Type}
    (exec : String → Option JSValue → α → Except String JSValue × α)
    (query : String) (vars : Option JSValue) (validateOnly : Bool) (w : α) :
    McpResponse × α :=
  if jsTrim query = "" then
    (createErrorResponse "Query cannot be empty. Please provide a valid GraphQL query." none, w)
  else
    let normalizedQuery := jsToLower (jsTrim query)
    if !(jsIncludes normalizedQuery "query") && !(jsIncludes normalizedQuery "mutation") then
      (createErrorResponse
        "Invalid query format. GraphQL operations should start with 'query' or 'mutation'."
        (some "If you're not sure how to format your query, try using the generate-query tool to create a template."), w)
    else if validateOnly then
      (createSuccessResponse (validateOnlyText query vars), w)
    else
      match exec query vars w with
      | (.ok result, w') =>
        let errorMessage := extractErrorMessage result
        if truthy errorMessage then
          (createErrorResponse ("Error from GraphQL API: " ++ jsDisplay errorMessage)
            (some "Please check your query syntax and variables. You can use the list-queries or list-mutations tools to see available operations."), w')
        else
          (createSuccessResponse
            ("Query executed successfully:\n\nResult:\n```json\n"
              ++ jsonStringify2 result ++ "\n```"), w')
      | (.error message, w') =>
        (createErrorResponse ("Error executing query: " ++ message)
          (some (getErrorSuggestion message)), w')

/-- C9: with a non-empty query containing "query" or "mutation"
case-insensitively and `validateOnly` set, the handler returns the
success response embedding the query verbatim and the (defaulted)
variables verbatim and returns the world unchanged; since the right-hand
side does not mention `exec` and `exec` is arbitrary, no GraphQL execution
is performed and the token and schema caches are untouched. -/
theorem executeQueryHandler_validateOnly {α : Type}
    (exec : String → Option JSValue → α → Except String JSValue × α)
    (query : String) (vars : Option JSValue) (w : α)
    (h1 : jsTrim query ≠ "")
    (h2 : (jsIncludes (jsToLower (jsTrim query)) "query"
          || jsIncludes (jsToLower (jsTrim query)) "mutation") = true) :
    executeQueryHandler exec query vars true w =
      (createSuccessResponse (validateOnlyText query vars), w) := by
  have h3 : (!(jsIncludes (jsToLower (jsTrim query)) "query")
      && !(jsIncludes (jsToLower (jsTrim query)) "mutation")) = false := by
    cases hq : jsIncludes (jsToLower (jsTrim query)) "query"
      <;> cases hm : jsIncludes (jsToLower (jsTrim query)) "mutation"
      <;> simp_all
  unfold executeQueryHandler
  rw [if_neg h1]
  simp only [h3]
  rfl

/-- C9 witness: a concrete validate-only call returns the embedded query
and empty variables and leaves the (here numeric) world unchanged even
though the oracle would have changed it. -/
theorem executeQueryHandler_validateOnly_witness :
    executeQueryHandler (fun _ _ (n : Nat) => (Except.ok JSValue.null, n + 1))
        "query \x7b hello \x7d" none true 0 =
      (createSuccessResponse (validateOnlyText "query \x7b hello \x7d" none), 0) :=
  executeQueryHandler_validateOnly _ _ _ _ (by decide) (by decide)

/-- Model of the module-level token cache (src/auth.ts): token value and
absolute expiry timestamp in milliseconds. -/
structure TokenCache where
  accessToken : String
  expiresAt : Int
deriving DecidableEq

/-- Outcome of the upstream token-exchange `fetch`: a parsed JSON success
(`access_token`, `expires_in` in seconds) or a thrown error (non-success
HTTP status or network failure), carrying the error message. -/
inductive FetchOutcome where
  | ok (access_token : String) (expires_in : Int)
  | fail (message : String)
deriving DecidableEq

/-- Result of one `getAccessToken` call: the returned token or thrown
error, the token cache after the call, and how many upstream
token-exchange calls were made (0 or 1). -/
structure AuthResult where
  result : Except String String
  cache : Option TokenCache
  upstreamCalls : Nat

/-- JavaScript truthiness of an optional environment string (`undefined`
or empty means missing). -/
def truthyStr : Option String → Bool
  | none => false
  | some s => s != ""

/-- Embedding of the token-exchange path of `getAccessToken` (src/auth.ts):
credential check, upstream POST, caching of
`expiresAt = now + (expires_in - 60) * 1000` on success; a failed exchange
throws and leaves the previous cache entry in place. -/
def fetchTokenPath (tokenCache : Option TokenCache) (now : Int)
    (clientId clientSecret authUrl : Option String) (fetch : FetchOutcome) : AuthResult :=
  if truthyStr clientId && truthyStr clientSecret && truthyStr authUrl then
    match fetch with
    | .ok tok exp =>
      ⟨.ok tok, some ⟨tok, now + (exp - 60) * 1000⟩, 1⟩
    | .fail message =>
      ⟨.error message, tokenCache, 1⟩
  else
    ⟨.error "Missing OAuth credentials in environment variables", tokenCache, 0⟩

/-- Embedding of `getAccessToken` (src/auth.ts lines 19-64): a cached
token that expires strictly later than now is returned verbatim with no
upstream call and the cache unchanged; otherwise the exchange path runs.
The current time `Date.now()` is the explicit `now` argument and the
upstream `fetch` outcome is the explicit `fetch` argument. -/
def getAccessToken (tokenCache : Option TokenCache) (now : Int)
    (clientId clientSecret authUrl : Option String) (fetch : FetchOutcome) : AuthResult :=
  match tokenCache with
  | some c =>
    if c.expiresAt > now then ⟨.ok c.accessToken, some c, 0⟩
    else fetchTokenPath tokenCache now clientId clientSecret authUrl fetch
  | none => fetchTokenPath tokenCache now clientId clientSecret authUrl fetch

/-- C6: a cached token whose expiry is strictly later than now is returned
verbatim with no upstream call and an unchanged cache, for any fetch
outcome; hence a first call (empty cache) followed by a second call within
the validity window makes exactly one upstream call in total, while a
third call at or after the cached expiry performs a second exchange and
caches `expiresAt = now + (expires_in - 60) seconds`. -/
theorem getAccessToken_cache_reuse
    (c : TokenCache) (now t1 t2 t3 : Int)
    (cid csec aurl : String) (tok tok2 : String) (exp exp2 : Int)
    (f f2 : FetchOutcome)
    (hvalid : c.expiresAt > now)
    (hcreds : (truthyStr (some cid) && truthyStr (some csec) && truthyStr (some aurl)) = true)
    (h2 : t1 + (exp - 60) * 1000 > t2)
    (h3 : ¬ t1 + (exp - 60) * 1000 > t3) :
    getAccessToken (some c) now (some cid) (some csec) (some aurl) f
      = ⟨.ok c.accessToken, some c, 0⟩
    ∧ (let r1 := getAccessToken none t1 (some cid) (some csec) (some aurl) (.ok tok exp)
       let r2 := getAccessToken r1.cache t2 (some cid) (some csec) (some aurl) f2
       r1.result = .ok tok ∧ r1.upstreamCalls = 1
       ∧ r2 = ⟨.ok tok, r1.cache, 0⟩
       ∧ r1.upstreamCalls + r2.upstreamCalls = 1)
    ∧ (let r1 := getAccessToken none t1 (some cid) (some csec) (some aurl) (.ok tok exp)
       let r3 := getAccessToken r1.cache t3 (some cid) (some csec) (some aurl) (.ok tok2 exp2)
       r3.result = .ok tok2 ∧ r3.upstreamCalls = 1
       ∧ r3.cache = some ⟨tok2, t3 + (exp2 - 60) * 1000⟩) := by
  have hr1 : getAccessToken none t1 (some cid) (some csec) (some aurl) (.ok tok exp)
      = ⟨.ok tok, some ⟨tok, t1 + (exp - 60) * 1000⟩, 1⟩ := by
    show fetchTokenPath none t1 (some cid) (some csec) (some aurl) (.ok tok exp) = _
    unfold fetchTokenPath
    rw [if_pos hcreds]
  have hr2 : getAccessToken (some ⟨tok, t1 + (exp - 60) * 1000⟩) t2
      (some cid) (some csec) (some aurl) f2
      = ⟨.ok tok, some ⟨tok, t1 + (exp - 60) * 1000⟩, 0⟩ := by
    simp only [getAccessToken]
    rw [if_pos h2]
  have hr3 : getAccessToken (some ⟨tok, t1 + (exp - 60) * 1000⟩) t3
      (some cid) (some csec) (some aurl) (.ok tok2 exp2)
      = ⟨.ok tok2, some ⟨tok2, t3 + (exp2 - 60) * 1000⟩, 1⟩ := by
    simp only [getAccessToken]
    rw [if_neg h3]
    unfold fetchTokenPath
    rw [if_pos hcreds]
  refine ⟨?_, ?_, ?_⟩
  · simp only [getAccessToken]
    rw [if_pos hvalid]
  · simp [hr1, hr2]
  · simp [hr1, hr3]

/-- C6 witness: with a cache valid until time 1000, a call at time 500
returns the cached token with no upstream call; a first fetch at time 0
with a 120-second token is reused at time 1000 (one upstream call in
total) and refreshed at time 60000, caching the new expiry. -/
theorem getAccessToken_cache_reuse_witness :
    getAccessToken (some ⟨"tokA", 1000⟩) 500 (some "id") (some "secret") (some "url")
        (.fail "unreachable")
      = ⟨.ok "tokA", some ⟨"tokA", 1000⟩, 0⟩
    ∧ (let r1 := getAccessToken none 0 (some "id") (some "secret") (some "url")
          (.ok "tokB" 120)
       let r2 := getAccessToken r1.cache 1000 (some "id") (some "secret") (some "url")
          (.fail "unreachable")
       r1.result = .ok "tokB" ∧ r1.upstreamCalls = 1
       ∧ r2 = ⟨.ok "tokB", r1.cache, 0⟩
       ∧ r1.upstreamCalls + r2.upstreamCalls = 1)
    ∧ (let r1 := getAccessToken none 0 (some "id") (some "secret") (some "url")
          (.ok "tokB" 120)
       let r3 := getAccessToken r1.cache 60000 (some "id") (some "secret") (some "url")
          (.ok "tokC" 300)
       r3.result = .ok "tokC" ∧ r3.upstreamCalls = 1
       ∧ r3.cache = some ⟨"tokC", 60000 + (300 - 60) * 1000⟩) :=
  getAccessToken_cache_reuse ⟨"tokA", 1000⟩ 500 0 1000 60000 "id" "secret" "url"
    "tokB" "tokC" 120 300 (.fail "unreachable") (.fail "unreachable")
    (by decide) (by decide) (by decide) (by decide)

/-- Embedding of the response normalization of `executeGraphQLQuery`
(src/graphql-client.ts line 105): `result?.data ?? result` — the `data`
property's value when it is present and non-nullish, otherwise the raw
response unchanged (nullish coalescing, not a property-presence test). -/
def normalizeGraphQLResponse (result : JSValue) : JSValue :=
  match getField result "data" with
  | .null => result
  | v => v

/-- C7 counterexample: the response `\x7bdata: null\x7d` has a `data`
property, yet normalization returns the whole raw response (an object),
not the property's value `null` — refuting the claim that the `data`
value is returned whenever the property is present. -/
theorem normalizeGraphQLResponse_data_null_counterexample :
    lookupField [("data", JSValue.null)] "data" = some JSValue.null
    ∧ normalizeGraphQLResponse (JSValue.obj [("data", JSValue.null)])
        = JSValue.obj [("data", JSValue.null)]
    ∧ normalizeGraphQLResponse (JSValue.obj [("data", JSValue.null)]) ≠ JSValue.null :=
  ⟨rfl, rfl, fun h => JSValue.noConfusion h⟩

/-- C7 amended: normalization returns the value of the `data` property
when that value is present and non-nullish; when the `data` property is
absent, nullish, or the response is not an object, the raw response is
returned unchanged. -/
theorem normalizeGraphQLResponse_amended (fs : List (String × JSValue)) :
    (∀ v, lookupField fs "data" = some v → v ≠ JSValue.null →
      normalizeGraphQLResponse (JSValue.obj fs) = v)
    ∧ (lookupField fs "data" = none →
      normalizeGraphQLResponse (JSValue.obj fs) = JSValue.obj fs)
    ∧ (lookupField fs "data" = some JSValue.null →
      normalizeGraphQLResponse (JSValue.obj fs) = JSValue.obj fs)
    ∧ (∀ r : JSValue, (∀ gs, r ≠ JSValue.obj gs) → normalizeGraphQLResponse r = r) := by
  refine ⟨?_, ?_, ?_, ?_⟩
  · intro v hv hnn
    unfold normalizeGraphQLResponse
    show (match getField (JSValue.obj fs) "data" with
          | JSValue.null => JSValue.obj fs
          | v => v) = v
    rw [show getField (JSValue.obj fs) "data" = v by
      show (lookupField fs "data").getD JSValue.null = v
      rw [hv]
      rfl]
    cases v <;> first | exact absurd rfl hnn | rfl
  · intro hnone
    unfold normalizeGraphQLResponse
    rw [show getField (JSValue.obj fs) "data" = JSValue.null by
      show (lookupField fs "data").getD JSValue.null = JSValue.null
      rw [hnone]
      rfl]
  · intro hnull
    unfold normalizeGraphQLResponse
    rw [show getField (JSValue.obj fs) "data" = JSValue.null by
      show (lookupField fs "data").getD JSValue.null = JSValue.null
      rw [hnull]
      rfl]
  · intro r hr
    cases r with
    | obj gs => exact absurd rfl (hr gs)
    | null => rfl
    | bool b => rfl
    | num n => rfl
    | str s => rfl
    | arr vs => rfl

/-- C7 amended witness: a response wrapping its payload in a non-null
`data` property normalizes to the payload; one with `data: null` is
returned unchanged. -/
theorem normalizeGraphQLResponse_amended_witness :
    normalizeGraphQLResponse (JSValue.obj [("data", JSValue.str "payload")])
      = JSValue.str "payload"
    ∧ normalizeGraphQLResponse (JSValue.obj [("data", JSValue.null)])
      = JSValue.obj [("data", JSValue.null)] :=
  ⟨(normalizeGraphQLResponse_amended [("data", JSValue.str "payload")]).1
      (JSValue.str "payload") rfl (fun h => JSValue.noConfusion h),
    (normalizeGraphQLResponse_amended [("data", JSValue.null)]).2.2.1 rfl⟩

end GraphQLMcp
